import Mathlib

/-!
Verification of the local conversation/session persistence managers of the
sarha-chat repository (`src/services/conversationService.ts` and the
session-storage module).  Strings processed character-by-character are
modelled as `List Char`; identifiers and version strings as `String`;
ISO-8601 timestamps as `Int` (milliseconds since the epoch, ordered the same
way `new Date(iso)` comparisons order the strings produced by
`toISOString`).
-/

namespace Sarha

/-- JavaScript `String.prototype.trim` removes these whitespace characters
(WhiteSpace ∪ LineTerminator of the ECMAScript grammar; the common members
are listed). -/
def isJsWhitespace (c : Char) : Bool :=
  c == ' ' || c == '\t' || c == '\n' || c == '\r' ||
  c == '\x0b' || c == '\x0c' || c == '\u00a0' || c == '\ufeff' ||
  c == '\u2028' || c == '\u2029'

/-- Model of `messageText.trim()`. -/
def trimJs (s : List Char) : List Char :=
  ((s.dropWhile isJsWhitespace).reverse.dropWhile isJsWhitespace).reverse

/-- The ellipsis marker appended by `generateTitle`: the three-character
string `'...'`. -/
def ellipsis : List Char := ['.', '.', '.']

/-- Model of `truncated.lastIndexOf(' ')`: `some i` when `i` is the largest
index holding a space, `none` when the string has no space (JS returns `-1`
there; `lastSpaceIndex > 0` in the source corresponds to the guard
`0 < i` on the `some` branch). -/
def lastSpaceIdx? : List Char → Option Nat
  | [] => none
  | c :: cs =>
    match lastSpaceIdx? cs with
    | some i => some (i + 1)
    | none => if c == ' ' then some 0 else none

/-- `ConversationStorageManager.generateTitle` (conversationService.ts,
lines 316–339).  The `try/catch` wrapper is dead in this model: every
operation is total. -/
def generateTitle (messageText : List Char) : List Char :=
  let cleanText := trimJs messageText
  let maxLength := 50
  if cleanText.length ≤ maxLength then
    cleanText
  else
    let truncated := cleanText.take maxLength
    match lastSpaceIdx? truncated with
    | some lastSpaceIndex =>
      if 0 < lastSpaceIndex then truncated.take lastSpaceIndex ++ ellipsis
      else truncated ++ ellipsis
    | none => truncated ++ ellipsis

theorem lastSpaceIdx?_eq_none {l : List Char} (h : lastSpaceIdx? l = none) :
    ' ' ∉ l := by
  induction l with
  | nil => simp
  | cons c cs ih =>
    simp only [lastSpaceIdx?] at h
    rcases hcs : lastSpaceIdx? cs with _ | i
    · rw [hcs] at h
      simp only [List.mem_cons, not_or]
      constructor
      · intro hc; subst hc; simp at h
      · exact ih hcs
    · rw [hcs] at h; simp at h

theorem lastSpaceIdx?_eq_some {l : List Char} {i : Nat}
    (h : lastSpaceIdx? l = some i) :
    i < l.length ∧ l.getD i 'x' = ' ' ∧ ' ' ∉ l.drop (i + 1) := by
  induction l generalizing i with
  | nil => simp [lastSpaceIdx?] at h
  | cons c cs ih =>
    simp only [lastSpaceIdx?] at h
    rcases hcs : lastSpaceIdx? cs with _ | j
    · rw [hcs] at h
      by_cases hc : c == ' '
      · simp only [hc, if_true] at h
        obtain rfl : i = 0 := by injection h; omega
        refine ⟨by simp, ?_, ?_⟩
        · simpa using (beq_iff_eq.mp hc)
        · simpa using lastSpaceIdx?_eq_none hcs
      · simp [hc] at h
    · rw [hcs] at h
      obtain rfl : i = j + 1 := by injection h; omega
      obtain ⟨h1, h2, h3⟩ := ih hcs
      exact ⟨by simpa using h1, by simpa using h2, by simpa using h3⟩

/-- Replace the first element satisfying `p` by its image under `f`;
`none` when no element matches.  This is the shape of the source's
`findIndex` / `find` followed by an in-place mutation of the found
record. -/
def updateFirst {α : Type} (p : α → Bool) (f : α → α) : List α → Option (List α)
  | [] => none
  | x :: xs => if p x then some (f x :: xs) else (updateFirst p f xs).map (x :: ·)

/-- Milliseconds in one day; `setDate(getDate() - n)` subtracts `n` of
these. -/
def dayMs : Int := 86400000

/-- `LocalMessage` (conversationService.ts, lines 11–17). -/
structure LocalMessage where
  id : String
  text : List Char
  isUser : Bool
  timestamp : Int
  conversationId : String
deriving DecidableEq

/-- `LocalConversation` (conversationService.ts, lines 19–29). -/
structure LocalConversation where
  id : String
  userId : String
  title : Option (List Char) := none
  messages : List LocalMessage
  createdAt : Int
  updatedAt : Int
  synced : Bool
  messageCount : Nat
  lastMessageAt : Int
deriving DecidableEq

/-- `ConversationData` (conversationService.ts, lines 31–35). -/
structure ConversationData where
  conversations : List LocalConversation
  lastCleanup : Int
  version : String
deriving DecidableEq

/-- What may sit under the manager's localStorage key: a JSON blob that
parses back to a document, or an unparseable blob (`JSON.parse` throws on
it).  A parseable blob of the wrong shape behaves like a parsed document
whose `version` fails the schema check, so it is covered by `valid` with a
foreign version string. -/
inductive ConvBlob where
  | valid (d : ConversationData)
  | garbage
deriving DecidableEq

/-- The browser storage cell for the conversations key.  `quotaFull` models
the environment condition under which `localStorage.setItem` throws (quota
exceeded); reads never throw. -/
structure ConvStore where
  blob : Option ConvBlob
  quotaFull : Bool
deriving DecidableEq

namespace ConversationStorageManager

def SCHEMA_VERSION : String := "1.0.0"

def MAX_CONVERSATIONS : Nat := 50

def MAX_MESSAGES_PER_CONVERSATION : Nat := 100

def CLEANUP_DAYS : Int := 30

/-- `createEmptyData` (lines 296–302). -/
def createEmptyData (now : Int) : ConversationData :=
  { conversations := [], lastCleanup := now, version := SCHEMA_VERSION }

/-- `migrateData` (lines 307–311): any version mismatch resets to clean
data. -/
def migrateData (now : Int) (_oldData : ConversationData) : ConversationData :=
  createEmptyData now

/-- `getData` (lines 48–68).  `now` is the clock value used when an empty
document has to be built. -/
def getData (now : Int) (store : ConvStore) : ConversationData :=
  match store.blob with
  | none => createEmptyData now
  | some .garbage => createEmptyData now
  | some (.valid data) =>
    if data.version ≠ SCHEMA_VERSION then migrateData now data else data

/-- `saveData` (lines 73–85): stamp version and cleanup timestamp, then
persist; `false` without a write when persistence throws. -/
def saveData (now : Int) (data : ConversationData) (store : ConvStore) :
    Bool × ConvStore :=
  let stamped := { data with version := SCHEMA_VERSION, lastCleanup := now }
  if store.quotaFull then (false, store)
  else (true, { store with blob := some (.valid stamped) })

/-- The `conversation` object `createConversation` builds before inserting
(lines 95–109): title assigned only for a user-authored initial
message. -/
def newConversationRecord (now : Int) (newId : String) (userId : String)
    (initialMessage : Option LocalMessage) : LocalConversation :=
  { id := newId
    userId := userId
    title := match initialMessage with
      | some m => if m.isUser then some (generateTitle m.text) else none
      | none => none
    messages := match initialMessage with | some m => [m] | none => []
    createdAt := now
    updatedAt := now
    synced := false
    messageCount := match initialMessage with | some _ => 1 | none => 0
    lastMessageAt := match initialMessage with
      | some m => m.timestamp
      | none => now }

/-- `createConversation` (lines 90–131).  The nondeterministic inputs of
the original — `new Date()` and `crypto.randomUUID()` — are passed in as
`now` and `newId`. -/
def createConversation (now : Int) (newId : String) (userId : String)
    (initialMessage : Option LocalMessage) (store : ConvStore) :
    Option LocalConversation × ConvStore :=
  let data := getData now store
  let conversation := newConversationRecord now newId userId initialMessage
  let afterInsert := conversation :: data.conversations
  let userConversations := afterInsert.filter (fun c => c.userId == userId)
  let conversations2 :=
    if MAX_CONVERSATIONS < userConversations.length then
      let conversationsToRemove := userConversations.drop MAX_CONVERSATIONS
      afterInsert.filter (fun c =>
        !(conversationsToRemove.any (fun toRemove => toRemove.id == c.id)))
    else afterInsert
  let saved := saveData now { data with conversations := conversations2 } store
  (if saved.1 then some conversation else none, saved.2)

/-- The argument type of `addMessage`:
`Omit<LocalMessage, 'id' | 'conversationId'>`.  `timestamp := none` models
a falsy (absent or empty) timestamp string, which the source replaces with
`now` via `message.timestamp || now`. -/
structure MessageInput where
  text : List Char
  isUser : Bool
  timestamp : Option Int
deriving DecidableEq

/-- The `newMessage` object built inside `addMessage` (lines 149–154). -/
def mkLocalMessage (now : Int) (newId : String) (conversationId : String)
    (message : MessageInput) : LocalMessage :=
  { id := newId
    conversationId := conversationId
    text := message.text
    isUser := message.isUser
    timestamp := message.timestamp.getD now }

/-- JS truthiness of the title field: `!conversation.title` also holds for
an empty title string. -/
def titleIsFalsy : Option (List Char) → Bool
  | none => true
  | some t => t.isEmpty

/-- The mutation `addMessage` performs on the found conversation
(lines 156–170): append, recompute count and timestamps, apply the
100-message cap, then assign a title when none is set and the new message
is user-authored. -/
def applyAddMessage (now : Int) (newId : String) (conversationId : String)
    (message : MessageInput) (c : LocalConversation) : LocalConversation :=
  let newMessage := mkLocalMessage now newId conversationId message
  let msgs := c.messages ++ [newMessage]
  let c1 := { c with
    messages := msgs
    messageCount := msgs.length
    updatedAt := now
    lastMessageAt := newMessage.timestamp }
  let c2 :=
    if MAX_MESSAGES_PER_CONVERSATION < c1.messages.length then
      let kept := c1.messages.drop
        (c1.messages.length - MAX_MESSAGES_PER_CONVERSATION)
      { c1 with messages := kept, messageCount := kept.length }
    else c1
  if titleIsFalsy c2.title && newMessage.isUser then
    { c2 with title := some (generateTitle message.text) }
  else c2

/-- `addMessage` (lines 136–177). -/
def addMessage (now : Int) (newId : String) (conversationId : String)
    (message : MessageInput) (store : ConvStore) : Bool × ConvStore :=
  let data := getData now store
  match updateFirst (fun c => c.id == conversationId)
      (applyAddMessage now newId conversationId message)
      data.conversations with
  | none => (false, store)
  | some conversations2 =>
    saveData now { data with conversations := conversations2 } store

/-- `markSynced` (lines 210–228). -/
def markSynced (now : Int) (conversationId : String) (store : ConvStore) :
    Bool × ConvStore :=
  let data := getData now store
  match updateFirst (fun c => c.id == conversationId)
      (fun c => { c with synced := true, updatedAt := now })
      data.conversations with
  | none => (false, store)
  | some conversations2 =>
    saveData now { data with conversations := conversations2 } store

/-- `deleteConversation` (lines 233–249). -/
def deleteConversation (now : Int) (conversationId : String)
    (store : ConvStore) : Bool × ConvStore :=
  let data := getData now store
  let initialLength := data.conversations.length
  let remaining := data.conversations.filter (fun c => !(c.id == conversationId))
  if remaining.length < initialLength then
    saveData now { data with conversations := remaining } store
  else (false, store)

/-- `cleanupOldConversations` (lines 254–278): keep conversations whose
`createdAt` is on or after `now` minus 30 days, persist only when at least
one was removed, return the removed count. -/
def cleanupOldConversations (now : Int) (store : ConvStore) :
    Nat × ConvStore :=
  let data := getData now store
  let cutoffDate := now - CLEANUP_DAYS * dayMs
  let initialCount := data.conversations.length
  let kept := data.conversations.filter (fun c => cutoffDate ≤ c.createdAt)
  let removedCount := initialCount - kept.length
  if 0 < removedCount then
    (removedCount, (saveData now { data with conversations := kept } store).2)
  else
    (removedCount, store)

end ConversationStorageManager

/-- `LocalSession` (session-storage module, lines 11–21).  `logoutAt` and
`durationSeconds` are optional fields. -/
structure LocalSession where
  id : String
  userId : String
  userAgent : String
  loginAt : Int
  logoutAt : Option Int := none
  durationSeconds : Option Int := none
  synced : Bool
  createdAt : Int
  updatedAt : Int
deriving DecidableEq

/-- `LocalSessionData` (lines 23–27). -/
structure LocalSessionData where
  sessions : List LocalSession
  lastCleanup : Int
  version : String
deriving DecidableEq

/-- The blob under the sessions localStorage key (same reading as
`ConvBlob`). -/
inductive SessBlob where
  | valid (d : LocalSessionData)
  | garbage
deriving DecidableEq

/-- The browser storage cell for the sessions key. -/
structure SessStore where
  blob : Option SessBlob
  quotaFull : Bool
deriving DecidableEq

/-- `Partial<LocalSession>`: each field is present (`some`) or absent
(`none`) in the updates object.  For the fields that are themselves
optional in `LocalSession`, a present field carries an `Option Int`.
An `updatedAt` entry in the updates object is always overridden by the
spread `{...session, ...updates, updatedAt: now}`, so the merge ignores
it. -/
structure SessionUpdates where
  id : Option String := none
  userId : Option String := none
  userAgent : Option String := none
  loginAt : Option Int := none
  logoutAt : Option (Option Int) := none
  durationSeconds : Option (Option Int) := none
  synced : Option Bool := none
  createdAt : Option Int := none
  updatedAt : Option Int := none
deriving DecidableEq

/-- The object spread `{...session, ...updates, updatedAt: now}` of
`updateSession` (lines 124–128). -/
def mergeSession (now : Int) (s : LocalSession) (u : SessionUpdates) :
    LocalSession :=
  { id := u.id.getD s.id
    userId := u.userId.getD s.userId
    userAgent := u.userAgent.getD s.userAgent
    loginAt := u.loginAt.getD s.loginAt
    logoutAt := u.logoutAt.getD s.logoutAt
    durationSeconds := u.durationSeconds.getD s.durationSeconds
    synced := u.synced.getD s.synced
    createdAt := u.createdAt.getD s.createdAt
    updatedAt := now }

namespace LocalStorageManager

def SCHEMA_VERSION : String := "1.0.0"

def MAX_SESSIONS : Nat := 1000

def CLEANUP_DAYS : Int := 30

/-- `createEmptyData` (lines 215–221). -/
def createEmptyData (now : Int) : LocalSessionData :=
  { sessions := [], lastCleanup := now, version := SCHEMA_VERSION }

/-- `migrateData` (lines 226–230). -/
def migrateData (now : Int) (_oldData : LocalSessionData) : LocalSessionData :=
  createEmptyData now

/-- `getData` (lines 39–59). -/
def getData (now : Int) (store : SessStore) : LocalSessionData :=
  match store.blob with
  | none => createEmptyData now
  | some .garbage => createEmptyData now
  | some (.valid data) =>
    if data.version ≠ SCHEMA_VERSION then migrateData now data else data

/-- `saveData` (lines 64–76). -/
def saveData (now : Int) (data : LocalSessionData) (store : SessStore) :
    Bool × SessStore :=
  let stamped := { data with version := SCHEMA_VERSION, lastCleanup := now }
  if store.quotaFull then (false, store)
  else (true, { store with blob := some (.valid stamped) })

/-- The argument type of `addSession`:
`Omit<LocalSession, 'id' | 'synced' | 'createdAt' | 'updatedAt'>`. -/
structure SessionInput where
  userId : String
  userAgent : String
  loginAt : Int
  logoutAt : Option Int := none
  durationSeconds : Option Int := none
deriving DecidableEq

/-- `addSession` (lines 81–109): unshift the new session, truncate to the
first `MAX_SESSIONS` entries, persist. -/
def addSession (now : Int) (newId : String) (session : SessionInput)
    (store : SessStore) : Option LocalSession × SessStore :=
  let data := getData now store
  let newSession : LocalSession :=
    { id := newId
      userId := session.userId
      userAgent := session.userAgent
      loginAt := session.loginAt
      logoutAt := session.logoutAt
      durationSeconds := session.durationSeconds
      synced := false
      createdAt := now
      updatedAt := now }
  let sessions1 := newSession :: data.sessions
  let sessions2 :=
    if MAX_SESSIONS < sessions1.length then sessions1.take MAX_SESSIONS
    else sessions1
  let saved := saveData now { data with sessions := sessions2 } store
  (if saved.1 then some newSession else none, saved.2)

/-- `updateSession` (lines 114–135). -/
def updateSession (now : Int) (sessionId : String) (updates : SessionUpdates)
    (store : SessStore) : Bool × SessStore :=
  let data := getData now store
  match updateFirst (fun s => s.id == sessionId)
      (fun s => mergeSession now s updates) data.sessions with
  | none => (false, store)
  | some sessions2 =>
    saveData now { data with sessions := sessions2 } store

/-- `markSynced` (lines 140–142): `updateSession(sessionId, {synced: true})`. -/
def markSynced (now : Int) (sessionId : String) (store : SessStore) :
    Bool × SessStore :=
  updateSession now sessionId { synced := some true } store

/-- `cleanupOldData` (lines 147–171). -/
def cleanupOldData (now : Int) (store : SessStore) : Nat × SessStore :=
  let data := getData now store
  let cutoffDate := now - CLEANUP_DAYS * dayMs
  let initialCount := data.sessions.length
  let kept := data.sessions.filter (fun s => cutoffDate ≤ s.createdAt)
  let removedCount := initialCount - kept.length
  if 0 < removedCount then
    (removedCount, (saveData now { data with sessions := kept } store).2)
  else
    (removedCount, store)

/-- `getAllSessions` (lines 189–197). -/
def getAllSessions (now : Int) (store : SessStore) : List LocalSession :=
  (getData now store).sessions

end LocalStorageManager

/-- The columns a conversation insert sends to the `conversations` table
(conversationService.ts, lines 366–373). -/
structure ConversationRow where
  id : String
  user_id : String
  title : Option (List Char)
  created_at : Int
  updated_at : Int
  message_count : Nat
deriving DecidableEq

/-- The columns a message insert sends to the `conversation_messages`
table (lines 392–398). -/
structure MessageRow where
  id : String
  conversation_id : String
  content : List Char
  is_user : Bool
  created_at : Int
deriving DecidableEq

/-- The columns a session insert sends to the `user_sessions` table
(session-storage module, lines 401–407). -/
structure SessionRow where
  user_id : String
  user_agent : String
  login_at : Int
  logout_at : Option Int
  duration_seconds : Option Int
deriving DecidableEq

/-- One remote database insert request. -/
inductive RemoteReq where
  | insertConversationRow (row : ConversationRow)
  | insertMessageRow (row : MessageRow)
  | insertSessionRow (row : SessionRow)
deriving DecidableEq

/-- The error object a failed insert produces.  `messageSaysTableMissing`
models `error.message?.includes('Could not find the table')`. -/
structure RemoteError where
  code : String
  messageSaysTableMissing : Bool
deriving DecidableEq

/-- The duck-typed "relation/table not found" test used throughout:
`error.code === 'PGRST205' || error.message?.includes('Could not find the
table')`. -/
def isTableMissingError (e : RemoteError) : Bool :=
  e.code == "PGRST205" || e.messageSaysTableMissing

/-- The remote database, as an oracle from a request to its outcome
(`none` = the insert succeeded). -/
def RemoteOracle : Type := RemoteReq → Option RemoteError

/-- The aggregate counts the sync functions return in their `data`
field. -/
structure SyncCounts where
  syncedCount : Nat
  failedCount : Nat
deriving DecidableEq

/-- The `DBResult<{syncedCount, failedCount}>` of the sync functions,
restricted to the fields the claims mention. -/
structure SyncResult where
  success : Bool
  data : Option SyncCounts
deriving DecidableEq

def convRow (c : LocalConversation) : ConversationRow :=
  { id := c.id
    user_id := c.userId
    title := c.title
    created_at := c.createdAt
    updated_at := c.updatedAt
    message_count := c.messageCount }

def msgRow (m : LocalMessage) : MessageRow :=
  { id := m.id
    conversation_id := m.conversationId
    content := m.text
    is_user := m.isUser
    created_at := m.timestamp }

def sessRow (s : LocalSession) : SessionRow :=
  { user_id := s.userId
    user_agent := s.userAgent
    login_at := s.loginAt
    logout_at := s.logoutAt
    duration_seconds := s.durationSeconds }

/-- The `for (const conversation of unsyncedConversations)` loop of
`syncConversationsToDB` (lines 363–417).  Carries the storage (each
`markSynced` is a fresh read-modify-write), the two counters, and the
trace of remote insert calls made so far.  Message-insert outcomes are
only logged by the source, so the loop ignores them beyond recording the
calls. -/
def syncConversationsLoop (oracle : RemoteOracle) (now : Int) :
    List LocalConversation → ConvStore → Nat → Nat → List RemoteReq →
    Nat × Nat × ConvStore × List RemoteReq
  | [], store, syncedCount, failedCount, trace =>
    (syncedCount, failedCount, store, trace)
  | conversation :: rest, store, syncedCount, failedCount, trace =>
    let req := RemoteReq.insertConversationRow (convRow conversation)
    match oracle req with
    | some err =>
      if isTableMissingError err then
        let store2 := (ConversationStorageManager.markSynced now conversation.id store).2
        syncConversationsLoop oracle now rest store2 (syncedCount + 1)
          failedCount (trace ++ [req])
      else
        syncConversationsLoop oracle now rest store syncedCount
          (failedCount + 1) (trace ++ [req])
    | none =>
      let msgReqs := conversation.messages.map
        (fun m => RemoteReq.insertMessageRow (msgRow m))
      let store2 := (ConversationStorageManager.markSynced now conversation.id store).2
      syncConversationsLoop oracle now rest store2 (syncedCount + 1)
        failedCount (trace ++ [req] ++ msgReqs)

/-- `syncConversationsToDB` (lines 346–426).  Returns the result, the
final storage, and the trace of remote insert calls performed. -/
def syncConversationsToDB (oracle : RemoteOracle) (now : Int)
    (store : ConvStore) : SyncResult × ConvStore × List RemoteReq :=
  let allConversations := (ConversationStorageManager.getData now store).conversations
  let unsyncedConversations := allConversations.filter (fun c => !c.synced)
  if unsyncedConversations.length = 0 then
    ({ success := true, data := some { syncedCount := 0, failedCount := 0 } },
      store, [])
  else
    match syncConversationsLoop oracle now unsyncedConversations store 0 0 [] with
    | (s, f, store2, trace) =>
      ({ success := true, data := some { syncedCount := s, failedCount := f } },
        store2, trace)

/-- The `for (const session of unsyncedSessions)` loop of
`syncLocalSessionsToDB` (session-storage module, lines 398–432). -/
def syncLocalSessionsLoop (oracle : RemoteOracle) (now : Int) :
    List LocalSession → SessStore → Nat → Nat → List RemoteReq →
    Nat × Nat × SessStore × List RemoteReq
  | [], store, syncedCount, failedCount, trace =>
    (syncedCount, failedCount, store, trace)
  | session :: rest, store, syncedCount, failedCount, trace =>
    let req := RemoteReq.insertSessionRow (sessRow session)
    match oracle req with
    | some err =>
      if isTableMissingError err then
        let store2 := (LocalStorageManager.markSynced now session.id store).2
        syncLocalSessionsLoop oracle now rest store2 (syncedCount + 1)
          failedCount (trace ++ [req])
      else
        syncLocalSessionsLoop oracle now rest store syncedCount
          (failedCount + 1) (trace ++ [req])
    | none =>
      let store2 := (LocalStorageManager.markSynced now session.id store).2
      syncLocalSessionsLoop oracle now rest store2 (syncedCount + 1)
        failedCount (trace ++ [req])

/-- `syncLocalSessionsToDB` (lines 381–441). -/
def syncLocalSessionsToDB (oracle : RemoteOracle) (now : Int)
    (store : SessStore) : SyncResult × SessStore × List RemoteReq :=
  let allSessions := LocalStorageManager.getAllSessions now store
  let unsyncedSessions := allSessions.filter (fun s => !s.synced)
  if unsyncedSessions.length = 0 then
    ({ success := true, data := some { syncedCount := 0, failedCount := 0 } },
      store, [])
  else
    match syncLocalSessionsLoop oracle now unsyncedSessions store 0 0 [] with
    | (s, f, store2, trace) =>
      ({ success := true, data := some { syncedCount := s, failedCount := f } },
        store2, trace)

/-- The per-conversation bookkeeping invariant of the data model: every
stored conversation's `messageCount` equals the length of its message
sequence. -/
def ConvDocInvariant (d : ConversationData) : Prop :=
  ∀ c ∈ d.conversations, c.messageCount = c.messages.length

/-- The invariant lifted to the storage cell: whatever clock value a later
read uses, the document it returns satisfies `ConvDocInvariant`. -/
def ConvStoreInvariant (s : ConvStore) : Prop :=
  ∀ t : Int, ConvDocInvariant (ConversationStorageManager.getData t s)

/-! ### Helper lemmas -/

theorem updateFirst_eq_none {α : Type} {p : α → Bool} {f : α → α}
    {l : List α} (h : ∀ x ∈ l, p x = false) : updateFirst p f l = none := by
  induction l with
  | nil => rfl
  | cons x xs ih =>
    have hx : p x = false := h x (List.mem_cons_self x xs)
    have hxs : updateFirst p f xs = none :=
      ih (fun y hy => h y (List.mem_cons_of_mem _ hy))
    simp [updateFirst, hx, hxs]

theorem updateFirst_append {α : Type} {p : α → Bool} (f : α → α)
    {pre : List α} {c : α} (suf : List α)
    (hpre : ∀ x ∈ pre, p x = false) (hc : p c = true) :
    updateFirst p f (pre ++ c :: suf) = some (pre ++ f c :: suf) := by
  induction pre with
  | nil => simp [updateFirst, hc]
  | cons x xs ih =>
    have hx : p x = false := hpre x (List.mem_cons_self x xs)
    have := ih (fun y hy => hpre y (List.mem_cons_of_mem _ hy))
    simp [updateFirst, hx, this]

theorem updateFirst_mem {α : Type} {p : α → Bool} {f : α → α}
    {l l2 : List α} (h : updateFirst p f l = some l2) :
    ∀ x ∈ l2, x ∈ l ∨ ∃ c ∈ l, x = f c := by
  induction l generalizing l2 with
  | nil => simp [updateFirst] at h
  | cons a as ih =>
    simp only [updateFirst] at h
    by_cases ha : p a
    · rw [if_pos ha] at h
      obtain rfl : f a :: as = l2 := by injection h
      intro x hx
      rcases List.mem_cons.mp hx with rfl | hx2
      · exact Or.inr ⟨a, List.mem_cons_self a as, rfl⟩
      · exact Or.inl (List.mem_cons_of_mem _ hx2)
    · rw [if_neg ha] at h
      rcases Option.map_eq_some'.mp h with ⟨l3, h3, rfl⟩
      intro x hx
      rcases List.mem_cons.mp hx with rfl | hx2
      · exact Or.inl (List.mem_cons_self x as)
      · rcases ih h3 x hx2 with hm | ⟨c, hc, rfl⟩
        · exact Or.inl (List.mem_cons_of_mem _ hm)
        · exact Or.inr ⟨c, List.mem_cons_of_mem _ hc, rfl⟩

theorem conv_getData_version (now : Int) (store : ConvStore) :
    (ConversationStorageManager.getData now store).version =
      ConversationStorageManager.SCHEMA_VERSION := by
  rcases store with ⟨blob, q⟩
  rcases blob with _ | b
  · rfl
  · rcases b with d | _
    · by_cases h : d.version = ConversationStorageManager.SCHEMA_VERSION
      · simp [ConversationStorageManager.getData, h]
      · simp [ConversationStorageManager.getData,
          ConversationStorageManager.migrateData,
          ConversationStorageManager.createEmptyData, h]
    · rfl

theorem sess_getData_version (now : Int) (store : SessStore) :
    (LocalStorageManager.getData now store).version =
      LocalStorageManager.SCHEMA_VERSION := by
  rcases store with ⟨blob, q⟩
  rcases blob with _ | b
  · rfl
  · rcases b with d | _
    · by_cases h : d.version = LocalStorageManager.SCHEMA_VERSION
      · simp [LocalStorageManager.getData, h]
      · simp [LocalStorageManager.getData,
          LocalStorageManager.migrateData,
          LocalStorageManager.createEmptyData, h]
    · rfl

/-! ### C4: write followed by read -/

/-- C4.  For every valid document, `saveData` followed by `getData` on the
same store key returns a document equal to the written one except for the
cleanup timestamp, refreshed to the write time, and the version field,
stamped with the current schema version; the write reports success.
Stated for both storage managers, under the assumption that the underlying
`localStorage.setItem` does not throw. -/
theorem saveData_getData_roundtrip (now nr : Int)
    (d : ConversationData) (sd : LocalSessionData)
    (store : ConvStore) (sstore : SessStore)
    (hq : store.quotaFull = false) (hq2 : sstore.quotaFull = false) :
    (ConversationStorageManager.saveData now d store).1 = true ∧
    ConversationStorageManager.getData nr
        (ConversationStorageManager.saveData now d store).2 =
      { d with version := ConversationStorageManager.SCHEMA_VERSION,
               lastCleanup := now } ∧
    (LocalStorageManager.saveData now sd sstore).1 = true ∧
    LocalStorageManager.getData nr
        (LocalStorageManager.saveData now sd sstore).2 =
      { sd with version := LocalStorageManager.SCHEMA_VERSION,
                lastCleanup := now } := by
  refine ⟨?_, ?_, ?_, ?_⟩ <;>
    simp [ConversationStorageManager.saveData,
      ConversationStorageManager.getData, LocalStorageManager.saveData,
      LocalStorageManager.getData, hq, hq2]

/-- Closed instance of `saveData_getData_roundtrip`. -/
theorem saveData_getData_roundtrip_witness :
    (ConversationStorageManager.saveData 3 ⟨[], 0, "old"⟩ ⟨none, false⟩).1 = true ∧
    ConversationStorageManager.getData 5
        (ConversationStorageManager.saveData 3 ⟨[], 0, "old"⟩ ⟨none, false⟩).2 =
      ⟨[], 3, ConversationStorageManager.SCHEMA_VERSION⟩ ∧
    (LocalStorageManager.saveData 3 ⟨[], 0, "old"⟩ ⟨none, false⟩).1 = true ∧
    LocalStorageManager.getData 5
        (LocalStorageManager.saveData 3 ⟨[], 0, "old"⟩ ⟨none, false⟩).2 =
      ⟨[], 3, LocalStorageManager.SCHEMA_VERSION⟩ :=
  saveData_getData_roundtrip 3 5 ⟨[], 0, "old"⟩ ⟨[], 0, "old"⟩
    ⟨none, false⟩ ⟨none, false⟩ rfl rfl

/-! ### C5: read is total and safe -/

/-- C5.  `getData` never fails (it is a total function here, matching the
catch-all in the source): when the key is absent, the blob unparseable, or
the stored version differs from the current schema version it returns the
empty document stamped with the current schema version, and otherwise it
returns the parsed document; in every case the returned document carries
the current schema version.  Stated for both storage managers. -/
theorem getData_total_safe (now : Int) (store : ConvStore)
    (sstore : SessStore) :
    (ConversationStorageManager.getData now store).version =
      ConversationStorageManager.SCHEMA_VERSION ∧
    (store.blob = none → ConversationStorageManager.getData now store =
      ⟨[], now, ConversationStorageManager.SCHEMA_VERSION⟩) ∧
    (store.blob = some ConvBlob.garbage →
      ConversationStorageManager.getData now store =
        ⟨[], now, ConversationStorageManager.SCHEMA_VERSION⟩) ∧
    (∀ d, store.blob = some (ConvBlob.valid d) →
      d.version ≠ ConversationStorageManager.SCHEMA_VERSION →
      ConversationStorageManager.getData now store =
        ⟨[], now, ConversationStorageManager.SCHEMA_VERSION⟩) ∧
    (∀ d, store.blob = some (ConvBlob.valid d) →
      d.version = ConversationStorageManager.SCHEMA_VERSION →
      ConversationStorageManager.getData now store = d) ∧
    (LocalStorageManager.getData now sstore).version =
      LocalStorageManager.SCHEMA_VERSION ∧
    (sstore.blob = none → LocalStorageManager.getData now sstore =
      ⟨[], now, LocalStorageManager.SCHEMA_VERSION⟩) ∧
    (sstore.blob = some SessBlob.garbage →
      LocalStorageManager.getData now sstore =
        ⟨[], now, LocalStorageManager.SCHEMA_VERSION⟩) ∧
    (∀ d, sstore.blob = some (SessBlob.valid d) →
      d.version ≠ LocalStorageManager.SCHEMA_VERSION →
      LocalStorageManager.getData now sstore =
        ⟨[], now, LocalStorageManager.SCHEMA_VERSION⟩) ∧
    (∀ d, sstore.blob = some (SessBlob.valid d) →
      d.version = LocalStorageManager.SCHEMA_VERSION →
      LocalStorageManager.getData now sstore = d) := by
  refine ⟨conv_getData_version now store, ?_, ?_, ?_, ?_,
    sess_getData_version now sstore, ?_, ?_, ?_, ?_⟩
  · intro h
    simp [ConversationStorageManager.getData, h,
      ConversationStorageManager.createEmptyData]
  · intro h
    simp [ConversationStorageManager.getData, h,
      ConversationStorageManager.createEmptyData]
  · intro d hd hv
    simp [ConversationStorageManager.getData, hd, hv,
      ConversationStorageManager.migrateData,
      ConversationStorageManager.createEmptyData]
  · intro d hd hv
    simp [ConversationStorageManager.getData, hd, hv]
  · intro h
    simp [LocalStorageManager.getData, h,
      LocalStorageManager.createEmptyData]
  · intro h
    simp [LocalStorageManager.getData, h,
      LocalStorageManager.createEmptyData]
  · intro d hd hv
    simp [LocalStorageManager.getData, hd, hv,
      LocalStorageManager.migrateData, LocalStorageManager.createEmptyData]
  · intro d hd hv
    simp [LocalStorageManager.getData, hd, hv]

/-- Closed instance of `getData_total_safe`: a version-mismatched blob
reads as the empty current-version document, and a garbage blob does
too. -/
theorem getData_total_safe_witness :
    ConversationStorageManager.getData 4
        ⟨some (ConvBlob.valid ⟨[], 7, "0.9"⟩), false⟩ =
      ⟨[], 4, ConversationStorageManager.SCHEMA_VERSION⟩ ∧
    LocalStorageManager.getData 4 ⟨some SessBlob.garbage, false⟩ =
      ⟨[], 4, LocalStorageManager.SCHEMA_VERSION⟩ :=
  ⟨(getData_total_safe 4 ⟨some (ConvBlob.valid ⟨[], 7, "0.9"⟩), false⟩
      ⟨some SessBlob.garbage, false⟩).2.2.2.1 ⟨[], 7, "0.9"⟩ rfl (by decide),
   (getData_total_safe 4 ⟨some (ConvBlob.valid ⟨[], 7, "0.9"⟩), false⟩
      ⟨some SessBlob.garbage, false⟩).2.2.2.2.2.2.2.1 rfl⟩

/-! ### C7: markSynced / updateSession on a nonexistent identifier -/

/-- C7.  When no record carries the given identifier, the conversation
manager's `markSynced` and the session manager's `updateSession` (and its
wrapper `markSynced`) return `false` and leave the storage cell exactly as
it was: nothing is modified, added, removed, or written. -/
theorem markSynced_nonexistent_noop (now : Int) (cid sid : String)
    (store : ConvStore) (sstore : SessStore) (updates : SessionUpdates)
    (hc : ∀ c ∈ (ConversationStorageManager.getData now store).conversations,
      c.id ≠ cid)
    (hs : ∀ s ∈ (LocalStorageManager.getData now sstore).sessions,
      s.id ≠ sid) :
    ConversationStorageManager.markSynced now cid store = (false, store) ∧
    LocalStorageManager.updateSession now sid updates sstore =
      (false, sstore) ∧
    LocalStorageManager.markSynced now sid sstore = (false, sstore) := by
  have h1 : updateFirst (fun c => c.id == cid)
      (fun c => { c with synced := true, updatedAt := now })
      (ConversationStorageManager.getData now store).conversations = none :=
    updateFirst_eq_none (fun x hx => beq_eq_false_iff_ne.mpr (hc x hx))
  have h2 : ∀ u : SessionUpdates,
      LocalStorageManager.updateSession now sid u sstore = (false, sstore) := by
    intro u
    have : updateFirst (fun s => s.id == sid)
        (fun s => mergeSession now s u)
        (LocalStorageManager.getData now sstore).sessions = none :=
      updateFirst_eq_none (fun x hx => beq_eq_false_iff_ne.mpr (hs x hx))
    simp [LocalStorageManager.updateSession, this]
  refine ⟨?_, h2 updates, h2 _⟩
  simp [ConversationStorageManager.markSynced, h1]

/-- Closed instance of `markSynced_nonexistent_noop`. -/
theorem markSynced_nonexistent_noop_witness :
    ConversationStorageManager.markSynced 9 "missing"
        ⟨some (ConvBlob.valid ⟨[], 0, "1.0.0"⟩), false⟩ =
      (false, ⟨some (ConvBlob.valid ⟨[], 0, "1.0.0"⟩), false⟩) ∧
    LocalStorageManager.updateSession 9 "missing" { synced := some true }
        ⟨none, false⟩ = (false, ⟨none, false⟩) ∧
    LocalStorageManager.markSynced 9 "missing" ⟨none, false⟩ =
      (false, ⟨none, false⟩) :=
  markSynced_nonexistent_noop 9 "missing" "missing"
    ⟨some (ConvBlob.valid ⟨[], 0, "1.0.0"⟩), false⟩ ⟨none, false⟩
    { synced := some true } (by decide) (by decide)

/-! ### C8: sync with zero unsynced records -/

/-- C8.  When every stored record is already synced, both sync functions
return success with counts `{syncedCount := 0, failedCount := 0}`, leave
the storage untouched, and make no remote insert call (empty trace). -/
theorem sync_no_unsynced_no_remote_calls (oracle : RemoteOracle) (now : Int)
    (store : ConvStore) (sstore : SessStore)
    (hc : ∀ c ∈ (ConversationStorageManager.getData now store).conversations,
      c.synced = true)
    (hs : ∀ s ∈ LocalStorageManager.getAllSessions now sstore,
      s.synced = true) :
    syncConversationsToDB oracle now store =
      ({ success := true, data := some ⟨0, 0⟩ }, store, []) ∧
    syncLocalSessionsToDB oracle now sstore =
      ({ success := true, data := some ⟨0, 0⟩ }, sstore, []) := by
  have h1 : (ConversationStorageManager.getData now store).conversations.filter
      (fun c => !c.synced) = [] :=
    List.filter_eq_nil_iff.mpr (fun a ha => by simp [hc a ha])
  have h2 : (LocalStorageManager.getAllSessions now sstore).filter
      (fun s => !s.synced) = [] :=
    List.filter_eq_nil_iff.mpr (fun a ha => by simp [hs a ha])
  constructor
  · simp [syncConversationsToDB, h1]
  · simp [syncLocalSessionsToDB, h2]

/-- Closed instance of `sync_no_unsynced_no_remote_calls`, on stores whose
single record is already synced. -/
theorem sync_no_unsynced_no_remote_calls_witness :
    syncConversationsToDB (fun _ => none) 2
        ⟨some (ConvBlob.valid ⟨[⟨"c1", "u1", none, [], 0, 0, true, 0, 0⟩], 0,
          "1.0.0"⟩), false⟩ =
      ({ success := true, data := some ⟨0, 0⟩ },
        ⟨some (ConvBlob.valid ⟨[⟨"c1", "u1", none, [], 0, 0, true, 0, 0⟩], 0,
          "1.0.0"⟩), false⟩, []) ∧
    syncLocalSessionsToDB (fun _ => none) 2 ⟨none, false⟩ =
      ({ success := true, data := some ⟨0, 0⟩ }, ⟨none, false⟩, []) :=
  sync_no_unsynced_no_remote_calls (fun _ => none) 2
    ⟨some (ConvBlob.valid ⟨[⟨"c1", "u1", none, [], 0, 0, true, 0, 0⟩], 0,
      "1.0.0"⟩), false⟩ ⟨none, false⟩ (by decide) (by decide)

/-! ### C1: title generation -/

theorem ellipsis_length : ellipsis.length = 3 := rfl

/-- C1 counterexample: an 80-character input without spaces is in the
truncation case (its trimmed length exceeds 50) and its generated title
ends with the ellipsis marker, yet the title is 53 characters long — the
marker `'...'` is three characters, so the claimed bound of 51 characters
fails. -/
theorem generateTitle_length_counterexample :
    50 < (trimJs (List.replicate 80 'a')).length ∧
    ellipsis.IsSuffix (generateTitle (List.replicate 80 'a')) ∧
    ¬(generateTitle (List.replicate 80 'a')).length ≤ 51 := by
  refine ⟨by decide, ⟨List.replicate 50 'a', by decide⟩, by decide⟩

/-- C1, amended.  Title generation first trims the text; when the trimmed
length is at most 50 the title is the trimmed text verbatim.  Otherwise
the title is the first 50 characters cut back to the last space boundary
when a space occurs past position 0 of those 50 characters (hard-truncated
at 50 otherwise), with the three-character ellipsis marker `'...'`
appended; in this truncation case the title is at most 53 characters long
(50 plus the three characters of the marker) and ends with the marker. -/
theorem generateTitle_spec (text : List Char) :
    ((trimJs text).length ≤ 50 → generateTitle text = trimJs text) ∧
    (50 < (trimJs text).length →
      (generateTitle text).length ≤ 53 ∧
      ellipsis.IsSuffix (generateTitle text) ∧
      ((∃ i, 0 < i ∧ i < 50 ∧
          ((trimJs text).take 50).getD i 'x' = ' ' ∧
          ' ' ∉ ((trimJs text).take 50).drop (i + 1) ∧
          generateTitle text = ((trimJs text).take 50).take i ++ ellipsis) ∨
        (' ' ∉ ((trimJs text).take 50).drop 1 ∧
          generateTitle text = (trimJs text).take 50 ++ ellipsis))) := by
  constructor
  · intro h
    simp [generateTitle, h]
  · intro h
    have hnot : ¬(trimJs text).length ≤ 50 := by omega
    have hTlen : ((trimJs text).take 50).length = 50 := by
      rw [List.length_take]; omega
    rcases hidx : lastSpaceIdx? ((trimJs text).take 50) with _ | i
    · have hgt : generateTitle text = (trimJs text).take 50 ++ ellipsis := by
        simp [generateTitle, hnot, hidx]
      have hnosp : ' ' ∉ (trimJs text).take 50 := lastSpaceIdx?_eq_none hidx
      refine ⟨?_, ⟨(trimJs text).take 50, hgt.symm⟩,
        Or.inr ⟨fun hm => hnosp (List.mem_of_mem_drop hm), hgt⟩⟩
      rw [hgt, List.length_append, hTlen, ellipsis_length]
    · obtain ⟨hi_lt, hi_sp, hi_no⟩ := lastSpaceIdx?_eq_some hidx
      rw [hTlen] at hi_lt
      by_cases hpos : 0 < i
      · have hgt : generateTitle text =
            ((trimJs text).take 50).take i ++ ellipsis := by
          simp [generateTitle, hnot, hidx, hpos]
        have htk : (((trimJs text).take 50).take i).length = i := by
          rw [List.length_take, hTlen]; omega
        refine ⟨?_, ⟨((trimJs text).take 50).take i, hgt.symm⟩,
          Or.inl ⟨i, hpos, hi_lt, hi_sp, hi_no, hgt⟩⟩
        rw [hgt, List.length_append, htk, ellipsis_length]; omega
      · have hi0 : i = 0 := by omega
        subst hi0
        have hgt : generateTitle text = (trimJs text).take 50 ++ ellipsis := by
          simp [generateTitle, hnot, hidx]
        refine ⟨?_, ⟨(trimJs text).take 50, hgt.symm⟩,
          Or.inr ⟨by simpa using hi_no, hgt⟩⟩
        rw [hgt, List.length_append, hTlen, ellipsis_length]

/-- Closed instance of `generateTitle_spec`: the short input `"Hola"` is
kept verbatim, and the 80-character spaceless input stays within 53
characters. -/
theorem generateTitle_spec_witness :
    generateTitle "Hola".data = trimJs "Hola".data ∧
    (generateTitle (List.replicate 80 'a')).length ≤ 53 :=
  ⟨(generateTitle_spec "Hola".data).1 (by decide),
   ((generateTitle_spec (List.replicate 80 'a')).2 (by decide)).1⟩

/-! ### C9: cleanup retention window -/

theorem conv_getData_conversations_eq (a b : Int) (s : ConvStore) :
    (ConversationStorageManager.getData a s).conversations =
      (ConversationStorageManager.getData b s).conversations := by
  rcases s with ⟨blob, q⟩
  rcases blob with _ | (d | _)
  · rfl
  · by_cases h : d.version = ConversationStorageManager.SCHEMA_VERSION <;>
      simp [ConversationStorageManager.getData,
        ConversationStorageManager.migrateData,
        ConversationStorageManager.createEmptyData, h]
  · rfl

theorem sess_getData_sessions_eq (a b : Int) (s : SessStore) :
    (LocalStorageManager.getData a s).sessions =
      (LocalStorageManager.getData b s).sessions := by
  rcases s with ⟨blob, q⟩
  rcases blob with _ | (d | _)
  · rfl
  · by_cases h : d.version = LocalStorageManager.SCHEMA_VERSION <;>
      simp [LocalStorageManager.getData, LocalStorageManager.migrateData,
        LocalStorageManager.createEmptyData, h]
  · rfl

theorem conv_getData_saveData (now nr : Int) (d : ConversationData)
    (s : ConvStore) (hq : s.quotaFull = false) :
    ConversationStorageManager.getData nr
        (ConversationStorageManager.saveData now d s).2 =
      { d with version := ConversationStorageManager.SCHEMA_VERSION,
               lastCleanup := now } := by
  simp [ConversationStorageManager.saveData,
    ConversationStorageManager.getData, hq]

theorem sess_getData_saveData (now nr : Int) (d : LocalSessionData)
    (s : SessStore) (hq : s.quotaFull = false) :
    LocalStorageManager.getData nr (LocalStorageManager.saveData now d s).2 =
      { d with version := LocalStorageManager.SCHEMA_VERSION,
               lastCleanup := now } := by
  simp [LocalStorageManager.saveData, LocalStorageManager.getData, hq]

theorem decide_lt_eq_not_decide_le (x y : Int) :
    decide (x < y) = !decide (y ≤ x) := by
  by_cases h : x < y
  · simp [h, Int.not_le.mpr h]
  · simp [h, Int.not_lt.mp h]

/-- The conversations half of the retention-window property. -/
theorem conv_cleanup_spec (now nr : Int) (store : ConvStore)
    (hq : store.quotaFull = false) :
    (ConversationStorageManager.cleanupOldConversations now store).1 =
      ((ConversationStorageManager.getData now store).conversations.filter
        (fun c => c.createdAt < now - 30 * dayMs)).length ∧
    ((ConversationStorageManager.cleanupOldConversations now store).1 = 0 →
      (ConversationStorageManager.cleanupOldConversations now store).2 =
        store) ∧
    (ConversationStorageManager.getData nr
        (ConversationStorageManager.cleanupOldConversations now store).2).conversations =
      (ConversationStorageManager.getData now store).conversations.filter
        (fun c => now - 30 * dayMs ≤ c.createdAt) := by
  have hfc : (ConversationStorageManager.getData now store).conversations.filter
        (fun c => c.createdAt < now - 30 * dayMs) =
      (ConversationStorageManager.getData now store).conversations.filter
        (fun c => !decide (now - 30 * dayMs ≤ c.createdAt)) :=
    List.filter_congr (fun c _ => decide_lt_eq_not_decide_le _ _)
  have hsum := List.length_eq_length_filter_add
    (l := (ConversationStorageManager.getData now store).conversations)
    (fun c => decide (now - 30 * dayMs ≤ c.createdAt))
  have hle := List.length_filter_le
    (fun c => decide (now - 30 * dayMs ≤ c.createdAt))
    (ConversationStorageManager.getData now store).conversations
  simp only [ConversationStorageManager.cleanupOldConversations,
    ConversationStorageManager.CLEANUP_DAYS]
  by_cases hcrit : ((ConversationStorageManager.getData now store).conversations.filter
      (fun c => decide (now - 30 * dayMs ≤ c.createdAt))).length =
      (ConversationStorageManager.getData now store).conversations.length
  · rw [if_neg (by omega)]
    refine ⟨by rw [hfc]; omega, fun _ => rfl, ?_⟩
    have heq : (ConversationStorageManager.getData now store).conversations.filter
        (fun c => decide (now - 30 * dayMs ≤ c.createdAt)) =
        (ConversationStorageManager.getData now store).conversations :=
      (List.filter_sublist _).eq_of_length hcrit
    rw [conv_getData_conversations_eq nr now store]
    exact heq.symm
  · rw [if_pos (by omega)]
    refine ⟨by rw [hfc]; omega, by intro h; omega, ?_⟩
    rw [conv_getData_saveData now nr _ store hq]

/-- The sessions half of the retention-window property. -/
theorem sess_cleanup_spec (now nr : Int) (store : SessStore)
    (hq : store.quotaFull = false) :
    (LocalStorageManager.cleanupOldData now store).1 =
      ((LocalStorageManager.getData now store).sessions.filter
        (fun s => s.createdAt < now - 30 * dayMs)).length ∧
    ((LocalStorageManager.cleanupOldData now store).1 = 0 →
      (LocalStorageManager.cleanupOldData now store).2 = store) ∧
    (LocalStorageManager.getData nr
        (LocalStorageManager.cleanupOldData now store).2).sessions =
      (LocalStorageManager.getData now store).sessions.filter
        (fun s => now - 30 * dayMs ≤ s.createdAt) := by
  have hfc : (LocalStorageManager.getData now store).sessions.filter
        (fun s => s.createdAt < now - 30 * dayMs) =
      (LocalStorageManager.getData now store).sessions.filter
        (fun s => !decide (now - 30 * dayMs ≤ s.createdAt)) :=
    List.filter_congr (fun s _ => decide_lt_eq_not_decide_le _ _)
  have hsum := List.length_eq_length_filter_add
    (l := (LocalStorageManager.getData now store).sessions)
    (fun s => decide (now - 30 * dayMs ≤ s.createdAt))
  have hle := List.length_filter_le
    (fun s => decide (now - 30 * dayMs ≤ s.createdAt))
    (LocalStorageManager.getData now store).sessions
  simp only [LocalStorageManager.cleanupOldData,
    LocalStorageManager.CLEANUP_DAYS]
  by_cases hcrit : ((LocalStorageManager.getData now store).sessions.filter
      (fun s => decide (now - 30 * dayMs ≤ s.createdAt))).length =
      (LocalStorageManager.getData now store).sessions.length
  · rw [if_neg (by omega)]
    refine ⟨by rw [hfc]; omega, fun _ => rfl, ?_⟩
    have heq : (LocalStorageManager.getData now store).sessions.filter
        (fun s => decide (now - 30 * dayMs ≤ s.createdAt)) =
        (LocalStorageManager.getData now store).sessions :=
      (List.filter_sublist _).eq_of_length hcrit
    rw [sess_getData_sessions_eq nr now store]
    exact heq.symm
  · rw [if_pos (by omega)]
    refine ⟨by rw [hfc]; omega, by intro h; omega, ?_⟩
    rw [sess_getData_saveData now nr _ store hq]

/-- C9.  `cleanupOldConversations` / `cleanupOldData` remove exactly the
records created strictly before `now` minus 30 days: the removed count is
returned, a record created within the window (at or after the cutoff) is
never removed, a record created 31 or more days ago is always removed, the
surviving records are exactly the filter of the old ones by the cutoff,
and the store is written back only when at least one record was removed
(count 0 leaves the storage cell untouched). -/
theorem cleanup_retention_window (now nr : Int) (store : ConvStore)
    (sstore : SessStore) (hq : store.quotaFull = false)
    (hq2 : sstore.quotaFull = false) :
    (ConversationStorageManager.cleanupOldConversations now store).1 =
      ((ConversationStorageManager.getData now store).conversations.filter
        (fun c => c.createdAt < now - 30 * dayMs)).length ∧
    ((ConversationStorageManager.cleanupOldConversations now store).1 = 0 →
      (ConversationStorageManager.cleanupOldConversations now store).2 =
        store) ∧
    (ConversationStorageManager.getData nr
        (ConversationStorageManager.cleanupOldConversations now store).2).conversations =
      (ConversationStorageManager.getData now store).conversations.filter
        (fun c => now - 30 * dayMs ≤ c.createdAt) ∧
    (∀ c ∈ (ConversationStorageManager.getData now store).conversations,
      now - 30 * dayMs ≤ c.createdAt →
      c ∈ (ConversationStorageManager.getData nr
        (ConversationStorageManager.cleanupOldConversations now store).2).conversations) ∧
    (∀ c ∈ (ConversationStorageManager.getData now store).conversations,
      c.createdAt ≤ now - 31 * dayMs →
      c ∉ (ConversationStorageManager.getData nr
        (ConversationStorageManager.cleanupOldConversations now store).2).conversations) ∧
    (LocalStorageManager.cleanupOldData now sstore).1 =
      ((LocalStorageManager.getData now sstore).sessions.filter
        (fun s => s.createdAt < now - 30 * dayMs)).length ∧
    ((LocalStorageManager.cleanupOldData now sstore).1 = 0 →
      (LocalStorageManager.cleanupOldData now sstore).2 = sstore) ∧
    (LocalStorageManager.getData nr
        (LocalStorageManager.cleanupOldData now sstore).2).sessions =
      (LocalStorageManager.getData now sstore).sessions.filter
        (fun s => now - 30 * dayMs ≤ s.createdAt) ∧
    (∀ s ∈ (LocalStorageManager.getData now sstore).sessions,
      now - 30 * dayMs ≤ s.createdAt →
      s ∈ (LocalStorageManager.getData nr
        (LocalStorageManager.cleanupOldData now sstore).2).sessions) ∧
    (∀ s ∈ (LocalStorageManager.getData now sstore).sessions,
      s.createdAt ≤ now - 31 * dayMs →
      s ∉ (LocalStorageManager.getData nr
        (LocalStorageManager.cleanupOldData now sstore).2).sessions) := by
  obtain ⟨h1, h2, h3⟩ := conv_cleanup_spec now nr store hq
  obtain ⟨g1, g2, g3⟩ := sess_cleanup_spec now nr sstore hq2
  have hday : dayMs = 86400000 := rfl
  refine ⟨h1, h2, h3, ?_, ?_, g1, g2, g3, ?_, ?_⟩
  · intro c hc hwin
    rw [h3]
    exact List.mem_filter.mpr ⟨hc, by simpa using hwin⟩
  · intro c hc hold hmem
    rw [h3] at hmem
    have h30 : now - 30 * dayMs ≤ c.createdAt := by
      simpa using (List.mem_filter.mp hmem).2
    omega
  · intro s hs hwin
    rw [g3]
    exact List.mem_filter.mpr ⟨hs, by simpa using hwin⟩
  · intro s hs hold hmem
    rw [g3] at hmem
    have h30 : now - 30 * dayMs ≤ s.createdAt := by
      simpa using (List.mem_filter.mp hmem).2
    omega

/-- Closed instance of `cleanup_retention_window`: with `now = 0`, a
conversation created 31 days before and one created at 0 yield a removed
count of 1; an absent session blob yields a removed count of 0. -/
theorem cleanup_retention_window_witness :
    (ConversationStorageManager.cleanupOldConversations 0
      ⟨some (ConvBlob.valid
        ⟨[⟨"old", "u", none, [], -2678400000, 0, false, 0, 0⟩,
          ⟨"new", "u", none, [], 0, 0, false, 0, 0⟩], 0, "1.0.0"⟩),
        false⟩).1 = 1 ∧
    (LocalStorageManager.cleanupOldData 0 ⟨none, false⟩).1 = 0 :=
  ⟨((cleanup_retention_window 0 7
      ⟨some (ConvBlob.valid
        ⟨[⟨"old", "u", none, [], -2678400000, 0, false, 0, 0⟩,
          ⟨"new", "u", none, [], 0, 0, false, 0, 0⟩], 0, "1.0.0"⟩), false⟩
      ⟨none, false⟩ rfl rfl).1).trans (by decide),
   ((cleanup_retention_window 0 7
      ⟨some (ConvBlob.valid
        ⟨[⟨"old", "u", none, [], -2678400000, 0, false, 0, 0⟩,
          ⟨"new", "u", none, [], 0, 0, false, 0, 0⟩], 0, "1.0.0"⟩), false⟩
      ⟨none, false⟩ rfl rfl).2.2.2.2.2.1).trans (by decide)⟩

/-! ### C3: the 100-message cap of addMessage -/

/-- When the conversation already holds at least 100 messages, the
mutation `addMessage` applies to it reduces to: append the new message,
keep the last 100, refresh timestamps and count, and possibly assign a
title. -/
theorem applyAddMessage_eq_of_cap (now : Int) (newId cid : String)
    (message : ConversationStorageManager.MessageInput)
    (c : LocalConversation) (h100 : 100 ≤ c.messages.length) :
    ConversationStorageManager.applyAddMessage now newId cid message c =
      { c with
        messages := (c.messages ++
            [ConversationStorageManager.mkLocalMessage now newId cid message]).drop
          (c.messages.length + 1 - 100),
        messageCount := ((c.messages ++
            [ConversationStorageManager.mkLocalMessage now newId cid message]).drop
          (c.messages.length + 1 - 100)).length,
        updatedAt := now,
        lastMessageAt :=
          (ConversationStorageManager.mkLocalMessage now newId cid message).timestamp,
        title := if ConversationStorageManager.titleIsFalsy c.title &&
            (ConversationStorageManager.mkLocalMessage now newId cid message).isUser then
            some (generateTitle message.text)
          else c.title } := by
  have hcap : 100 < c.messages.length + 1 := by omega
  simp [ConversationStorageManager.applyAddMessage,
    ConversationStorageManager.MAX_MESSAGES_PER_CONVERSATION, hcap]
  split_ifs <;> rfl

/-- C3.  For a conversation already holding 100 or more messages,
`addMessage` appends the new message and retains exactly the 100 most
recent messages in their original insertion order — the suffix of the
appended sequence — the new message being the last retained one; the
stored document afterwards holds the updated conversation in place, with
every other conversation untouched. -/
theorem addMessage_message_cap (now nr : Int) (newId cid : String)
    (message : ConversationStorageManager.MessageInput) (store : ConvStore)
    (pre suf : List LocalConversation) (c : LocalConversation)
    (hdecomp : (ConversationStorageManager.getData now store).conversations =
      pre ++ c :: suf)
    (hpre : ∀ x ∈ pre, x.id ≠ cid) (hcid : c.id = cid)
    (h100 : 100 ≤ c.messages.length) (hq : store.quotaFull = false) :
    (ConversationStorageManager.applyAddMessage now newId cid message c).messages =
      (c.messages ++
        [ConversationStorageManager.mkLocalMessage now newId cid message]).drop
        (c.messages.length + 1 - 100) ∧
    (ConversationStorageManager.applyAddMessage now newId cid message
      c).messages.length = 100 ∧
    (ConversationStorageManager.applyAddMessage now newId cid message
      c).messages.getLast? =
      some (ConversationStorageManager.mkLocalMessage now newId cid message) ∧
    (ConversationStorageManager.addMessage now newId cid message store).1 =
      true ∧
    (ConversationStorageManager.getData nr
        (ConversationStorageManager.addMessage now newId cid message
          store).2).conversations =
      pre ++ ConversationStorageManager.applyAddMessage now newId cid message
        c :: suf := by
  have hkey := applyAddMessage_eq_of_cap now newId cid message c h100
  have hmsgs : (ConversationStorageManager.applyAddMessage now newId cid
      message c).messages =
      (c.messages ++
        [ConversationStorageManager.mkLocalMessage now newId cid message]).drop
        (c.messages.length + 1 - 100) := by
    rw [hkey]
  have hupd : updateFirst (fun x => x.id == cid)
      (ConversationStorageManager.applyAddMessage now newId cid message)
      (ConversationStorageManager.getData now store).conversations =
      some (pre ++ ConversationStorageManager.applyAddMessage now newId cid
        message c :: suf) := by
    rw [hdecomp]
    exact updateFirst_append _ suf
      (fun x hx => beq_eq_false_iff_ne.mpr (hpre x hx)) (by simp [hcid])
  refine ⟨hmsgs, ?_, ?_, ?_, ?_⟩
  · rw [hmsgs]
    simp only [List.length_drop, List.length_append, List.length_cons,
      List.length_nil]
    omega
  · rw [hmsgs, List.drop_append_of_le_length (by omega), List.getLast?_concat]
  · simp [ConversationStorageManager.addMessage, hupd,
      ConversationStorageManager.saveData, hq]
  · simp only [ConversationStorageManager.addMessage, hupd]
    rw [conv_getData_saveData now nr _ store hq]

/-- Closed instance of `addMessage_message_cap`: a conversation with
exactly 100 messages keeps exactly 100 after the append, and the new
message is the last retained one. -/
theorem addMessage_message_cap_witness :
    (ConversationStorageManager.applyAddMessage 6 "m101" "c1"
      ⟨['h', 'i'], true, some 6⟩
      ⟨"c1", "u1", some ['t'],
        List.replicate 100 ⟨"m0", ['x'], false, 0, "c1"⟩, 0, 0, false, 100,
        0⟩).messages.length = 100 ∧
    (ConversationStorageManager.applyAddMessage 6 "m101" "c1"
      ⟨['h', 'i'], true, some 6⟩
      ⟨"c1", "u1", some ['t'],
        List.replicate 100 ⟨"m0", ['x'], false, 0, "c1"⟩, 0, 0, false, 100,
        0⟩).messages.getLast? =
      some (ConversationStorageManager.mkLocalMessage 6 "m101" "c1"
        ⟨['h', 'i'], true, some 6⟩) :=
  ⟨(addMessage_message_cap 6 7 "m101" "c1" ⟨['h', 'i'], true, some 6⟩
      ⟨some (ConvBlob.valid ⟨[⟨"c1", "u1", some ['t'],
        List.replicate 100 ⟨"m0", ['x'], false, 0, "c1"⟩, 0, 0, false, 100,
        0⟩], 0, "1.0.0"⟩), false⟩
      [] [] _ (by decide) (by decide) rfl (by decide) rfl).2.1,
   (addMessage_message_cap 6 7 "m101" "c1" ⟨['h', 'i'], true, some 6⟩
      ⟨some (ConvBlob.valid ⟨[⟨"c1", "u1", some ['t'],
        List.replicate 100 ⟨"m0", ['x'], false, 0, "c1"⟩, 0, 0, false, 100,
        0⟩], 0, "1.0.0"⟩), false⟩
      [] [] _ (by decide) (by decide) rfl (by decide) rfl).2.2.1⟩

/-! ### C10: updateSession frame and unrestricted merge -/

/-- C10.  When the document contains a session with the given identifier,
`updateSession` replaces only the first such session by the merge of the
old record with the supplied partial fields (stamping `updatedAt` with the
update time) and leaves every other session, and the order of all
records, unchanged; the merge is unrestricted, so supplied fields
overwrite any field of the record, including `id`, `createdAt` and the
`synced` flag. -/
theorem updateSession_frame (now nr : Int) (sid : String)
    (updates : SessionUpdates) (sstore : SessStore)
    (pre suf : List LocalSession) (s : LocalSession)
    (hdecomp : (LocalStorageManager.getData now sstore).sessions =
      pre ++ s :: suf)
    (hpre : ∀ x ∈ pre, x.id ≠ sid) (hsid : s.id = sid)
    (hq : sstore.quotaFull = false) :
    (LocalStorageManager.updateSession now sid updates sstore).1 = true ∧
    (LocalStorageManager.getData nr
        (LocalStorageManager.updateSession now sid updates sstore).2).sessions =
      pre ++ mergeSession now s updates :: suf ∧
    (∀ v, updates.id = some v → (mergeSession now s updates).id = v) ∧
    (∀ v, updates.createdAt = some v →
      (mergeSession now s updates).createdAt = v) ∧
    (∀ b, updates.synced = some b → (mergeSession now s updates).synced = b) ∧
    (updates.id = none → (mergeSession now s updates).id = s.id) ∧
    (mergeSession now s updates).updatedAt = now := by
  have hupd : updateFirst (fun x => x.id == sid)
      (fun x => mergeSession now x updates)
      (LocalStorageManager.getData now sstore).sessions =
      some (pre ++ mergeSession now s updates :: suf) := by
    rw [hdecomp]
    exact updateFirst_append _ suf
      (fun x hx => beq_eq_false_iff_ne.mpr (hpre x hx)) (by simp [hsid])
  refine ⟨?_, ?_, ?_, ?_, ?_, ?_, rfl⟩
  · simp [LocalStorageManager.updateSession, hupd,
      LocalStorageManager.saveData, hq]
  · simp only [LocalStorageManager.updateSession, hupd]
    rw [sess_getData_saveData now nr _ sstore hq]
  · intro v hv; simp [mergeSession, hv]
  · intro v hv; simp [mergeSession, hv]
  · intro b hb; simp [mergeSession, hb]
  · intro hn; simp [mergeSession, hn]

/-- Closed instance of `updateSession_frame`: overwriting `id` and
`synced` of the only session while stamping `updatedAt`. -/
theorem updateSession_frame_witness :
    (LocalStorageManager.updateSession 9 "s1"
      { id := some "other", synced := some true }
      ⟨some (SessBlob.valid
        ⟨[⟨"s1", "u", "ua", 5, none, none, false, 2, 3⟩], 0, "1.0.0"⟩),
        false⟩).1 = true ∧
    (LocalStorageManager.getData 11
        (LocalStorageManager.updateSession 9 "s1"
          { id := some "other", synced := some true }
          ⟨some (SessBlob.valid
            ⟨[⟨"s1", "u", "ua", 5, none, none, false, 2, 3⟩], 0, "1.0.0"⟩),
            false⟩).2).sessions =
      [] ++ mergeSession 9 ⟨"s1", "u", "ua", 5, none, none, false, 2, 3⟩
        { id := some "other", synced := some true } :: [] :=
  ⟨(updateSession_frame 9 11 "s1" { id := some "other", synced := some true }
      ⟨some (SessBlob.valid
        ⟨[⟨"s1", "u", "ua", 5, none, none, false, 2, 3⟩], 0, "1.0.0"⟩), false⟩
      [] [] ⟨"s1", "u", "ua", 5, none, none, false, 2, 3⟩
      (by decide) (by decide) rfl rfl).1,
   (updateSession_frame 9 11 "s1" { id := some "other", synced := some true }
      ⟨some (SessBlob.valid
        ⟨[⟨"s1", "u", "ua", 5, none, none, false, 2, 3⟩], 0, "1.0.0"⟩), false⟩
      [] [] ⟨"s1", "u", "ua", 5, none, none, false, 2, 3⟩
      (by decide) (by decide) rfl rfl).2.1⟩

/-! ### C6: messageCount invariant -/

theorem conv_inv_saveData (now : Int) (D : ConversationData) (s : ConvStore)
    (hD : ConvDocInvariant D) (hs : ConvStoreInvariant s) :
    ConvStoreInvariant (ConversationStorageManager.saveData now D s).2 := by
  intro t
  by_cases hq : s.quotaFull = true
  · have h2 : (ConversationStorageManager.saveData now D s).2 = s := by
      simp [ConversationStorageManager.saveData, hq]
    rw [h2]; exact hs t
  · have hq2 : s.quotaFull = false := by simpa using hq
    intro c hc
    rw [conv_getData_saveData now t D s hq2] at hc
    exact hD c hc

theorem applyAddMessage_count_inv (now : Int) (newId cid : String)
    (message : ConversationStorageManager.MessageInput)
    (c : LocalConversation) :
    (ConversationStorageManager.applyAddMessage now newId cid message
      c).messageCount =
    (ConversationStorageManager.applyAddMessage now newId cid message
      c).messages.length := by
  simp only [ConversationStorageManager.applyAddMessage]
  split_ifs <;> simp

/-- C6.  Every conversation-manager operation preserves the invariant
that each stored conversation's `messageCount` equals the length of its
(capped) message sequence. -/
theorem messageCount_invariant_preserved (now : Int)
    (newId userId cid did : String) (im : Option LocalMessage)
    (message : ConversationStorageManager.MessageInput) (store : ConvStore)
    (hinv : ConvStoreInvariant store) :
    ConvStoreInvariant
      (ConversationStorageManager.createConversation now newId userId im
        store).2 ∧
    ConvStoreInvariant
      (ConversationStorageManager.addMessage now newId cid message store).2 ∧
    ConvStoreInvariant
      (ConversationStorageManager.markSynced now cid store).2 ∧
    ConvStoreInvariant
      (ConversationStorageManager.deleteConversation now did store).2 ∧
    ConvStoreInvariant
      (ConversationStorageManager.cleanupOldConversations now store).2 := by
  refine ⟨?_, ?_, ?_, ?_, ?_⟩
  · simp only [ConversationStorageManager.createConversation]
    refine conv_inv_saveData now _ store ?_ hinv
    intro c hc
    split at hc
    · rcases List.mem_cons.mp (List.mem_filter.mp hc).1 with rfl | hold
      · cases im <;> rfl
      · exact hinv now c hold
    · rcases List.mem_cons.mp hc with rfl | hold
      · cases im <;> rfl
      · exact hinv now c hold
  · rcases hu : updateFirst (fun x => x.id == cid)
        (ConversationStorageManager.applyAddMessage now newId cid message)
        (ConversationStorageManager.getData now store).conversations
      with _ | l2
    · simp only [ConversationStorageManager.addMessage, hu]
      exact hinv
    · simp only [ConversationStorageManager.addMessage, hu]
      refine conv_inv_saveData now _ store ?_ hinv
      intro c hc
      rcases updateFirst_mem hu c hc with hold | ⟨c0, hc0, rfl⟩
      · exact hinv now c hold
      · exact applyAddMessage_count_inv now newId cid message c0
  · rcases hu : updateFirst (fun x => x.id == cid)
        (fun c => { c with synced := true, updatedAt := now })
        (ConversationStorageManager.getData now store).conversations
      with _ | l2
    · simp only [ConversationStorageManager.markSynced, hu]
      exact hinv
    · simp only [ConversationStorageManager.markSynced, hu]
      refine conv_inv_saveData now _ store ?_ hinv
      intro c hc
      rcases updateFirst_mem hu c hc with hold | ⟨c0, hc0, rfl⟩
      · exact hinv now c hold
      · exact hinv now c0 hc0
  · simp only [ConversationStorageManager.deleteConversation]
    split
    · refine conv_inv_saveData now _ store ?_ hinv
      intro c hc
      exact hinv now c (List.mem_filter.mp hc).1
    · exact hinv
  · simp only [ConversationStorageManager.cleanupOldConversations]
    split
    · refine conv_inv_saveData now _ store ?_ hinv
      intro c hc
      exact hinv now c (List.mem_filter.mp hc).1
    · exact hinv

/-- Closed instance of `messageCount_invariant_preserved`, starting from
the empty store (whose documents trivially satisfy the invariant). -/
theorem messageCount_invariant_preserved_witness :
    ConvStoreInvariant
      (ConversationStorageManager.createConversation 1 "m2" "u1"
        (some ⟨"m1", ['h', 'i'], true, 1, "c9"⟩) ⟨none, false⟩).2 ∧
    ConvStoreInvariant
      (ConversationStorageManager.addMessage 1 "m2" "c9"
        ⟨['y', 'o'], false, none⟩ ⟨none, false⟩).2 ∧
    ConvStoreInvariant
      (ConversationStorageManager.markSynced 1 "c9" ⟨none, false⟩).2 ∧
    ConvStoreInvariant
      (ConversationStorageManager.deleteConversation 1 "c9" ⟨none, false⟩).2 ∧
    ConvStoreInvariant
      (ConversationStorageManager.cleanupOldConversations 1
        ⟨none, false⟩).2 :=
  messageCount_invariant_preserved 1 "m2" "u1" "c9" "c9"
    (some ⟨"m1", ['h', 'i'], true, 1, "c9"⟩) ⟨['y', 'o'], false, none⟩
    ⟨none, false⟩ (fun _ _ hc => nomatch hc)

/-! ### C2: the 50-conversation per-user cap of createConversation -/

theorem conv_cap_core (userId : String) (L : List LocalConversation)
    (hnodup : (L.map (fun c => c.id)).Nodup) :
    ((if 50 < (L.filter (fun c => c.userId == userId)).length then
        L.filter (fun c =>
          !(((L.filter (fun c => c.userId == userId)).drop 50).any
            (fun r => r.id == c.id)))
      else L).filter (fun c => c.userId == userId)).length ≤ 50 ∧
    (if 50 < (L.filter (fun c => c.userId == userId)).length then
        L.filter (fun c =>
          !(((L.filter (fun c => c.userId == userId)).drop 50).any
            (fun r => r.id == c.id)))
      else L).filter (fun c => !(c.userId == userId)) =
      L.filter (fun c => !(c.userId == userId)) ∧
    (if 50 < (L.filter (fun c => c.userId == userId)).length then
        L.filter (fun c =>
          !(((L.filter (fun c => c.userId == userId)).drop 50).any
            (fun r => r.id == c.id)))
      else L).filter (fun c => c.userId == userId) =
      (L.filter (fun c => c.userId == userId)).take 50 := by
  by_cases hcap : 50 < (L.filter (fun c => c.userId == userId)).length
  case neg =>
    rw [if_neg hcap]
    exact ⟨by omega, rfl, (List.take_of_length_le (by omega)).symm⟩
  case pos =>
    rw [if_pos hcap]
    have hinj := List.inj_on_of_nodup_map hnodup
    have hLnd : L.Nodup := List.Nodup.of_map _ hnodup
    set U := L.filter (fun c => c.userId == userId) with hU
    have hUnd : U.Nodup := hLnd.filter _
    set T := U.take 50 with hT
    set R := U.drop 50 with hR
    have hTR : T ++ R = U := by
      rw [hT, hR]; exact List.take_append_drop 50 U
    have hdisj : List.Disjoint T R := by
      apply List.disjoint_of_nodup_append
      rw [hTR]; exact hUnd
    have hRsubU : ∀ r ∈ R, r ∈ U := by
      intro r hr; rw [hR] at hr; exact List.mem_of_mem_drop hr
    have hTsubU : ∀ t ∈ T, t ∈ U := by
      intro t ht; rw [hT] at ht; exact List.mem_of_mem_take ht
    have hUsubL : ∀ u ∈ U, u ∈ L := by
      intro u hu; rw [hU] at hu; exact List.mem_of_mem_filter hu
    have hUuser : ∀ u ∈ U, (u.userId == userId) = true := by
      intro u hu; rw [hU] at hu; exact (List.mem_filter.mp hu).2
    have key1 : ∀ c ∈ L, (c.userId == userId) = false →
        (R.any (fun r => r.id == c.id)) = false := by
      intro c hc hbu
      rw [List.any_eq_false]
      intro r hr hrc
      have hre : r = c := hinj (hUsubL r (hRsubU r hr)) hc (beq_iff_eq.mp hrc)
      rw [hre] at hr
      have := hUuser c (hRsubU c hr)
      rw [this] at hbu
      exact Bool.noConfusion hbu
    have key2 : ∀ t ∈ T, (R.any (fun r => r.id == t.id)) = false := by
      intro t ht
      rw [List.any_eq_false]
      intro r hr hrt
      have hre : r = t := hinj (hUsubL r (hRsubU r hr))
        (hUsubL t (hTsubU t ht)) (beq_iff_eq.mp hrt)
      rw [hre] at hr
      exact hdisj ht hr
    have key3 : ∀ r ∈ R, (R.any (fun r2 => r2.id == r.id)) = true := by
      intro r hr
      rw [List.any_eq_true]
      exact ⟨r, hr, beq_self_eq_true r.id⟩
    have hmain : (L.filter (fun c =>
        !(R.any (fun r => r.id == c.id)))).filter
        (fun c => c.userId == userId) = T := by
      rw [List.filter_filter]
      have hstep : L.filter
          (fun a => (a.userId == userId) && !(R.any (fun r => r.id == a.id))) =
          U.filter (fun a => !(R.any (fun r => r.id == a.id))) := by
        rw [hU, List.filter_filter]
        exact List.filter_congr (fun a _ => Bool.and_comm _ _)
      rw [hstep, ← hTR, List.filter_append]
      have h1 : T.filter (fun a => !(R.any (fun r => r.id == a.id))) = T :=
        List.filter_eq_self.mpr (fun t ht => by rw [key2 t ht]; rfl)
      have h2 : R.filter (fun a => !(R.any (fun r => r.id == a.id))) = [] :=
        List.filter_eq_nil_iff.mpr (fun r hr => by rw [key3 r hr]; simp)
      rw [h1, h2, List.append_nil]
    refine ⟨?_, ?_, hmain.trans hT⟩
    · rw [hmain]
      have : T.length = 50 := by rw [hT, List.length_take]; omega
      omega
    · rw [List.filter_filter]
      apply List.filter_congr
      intro a ha
      by_cases hbu : (a.userId == userId) = true
      · rw [hbu]; simp
      · have hbu2 : (a.userId == userId) = false := by
          simpa using hbu
        rw [hbu2, key1 a ha hbu2]
        simp

theorem conv_cap_insert (userId : String) (c0 : LocalConversation)
    (old : List LocalConversation) (hu : (c0.userId == userId) = true)
    (hnodup : ((c0 :: old).map (fun c => c.id)).Nodup) :
    ((if 50 < ((c0 :: old).filter (fun c => c.userId == userId)).length then
        (c0 :: old).filter (fun c =>
          !((((c0 :: old).filter (fun c => c.userId == userId)).drop 50).any
            (fun r => r.id == c.id)))
      else (c0 :: old)).filter (fun c => c.userId == userId)).length ≤ 50 ∧
    (if 50 < ((c0 :: old).filter (fun c => c.userId == userId)).length then
        (c0 :: old).filter (fun c =>
          !((((c0 :: old).filter (fun c => c.userId == userId)).drop 50).any
            (fun r => r.id == c.id)))
      else (c0 :: old)).filter (fun c => !(c.userId == userId)) =
      old.filter (fun c => !(c.userId == userId)) ∧
    (if 50 < ((c0 :: old).filter (fun c => c.userId == userId)).length then
        (c0 :: old).filter (fun c =>
          !((((c0 :: old).filter (fun c => c.userId == userId)).drop 50).any
            (fun r => r.id == c.id)))
      else (c0 :: old)).filter (fun c => c.userId == userId) =
      ((c0 :: old).filter (fun c => c.userId == userId)).take 50 := by
  obtain ⟨h1, h2, h3⟩ := conv_cap_core userId (c0 :: old) hnodup
  refine ⟨h1, ?_, h3⟩
  rw [h2]
  rw [List.filter_cons_of_neg]
  simp [hu]

/-- C2.  Under the data-model invariant that stored identifiers are
unique (and the freshly generated identifier is new), after
`createConversation(userId, …)` the stored document holds at most 50
conversations owned by `userId`; the sequence of conversations owned by
every other user is exactly what it was before the call — nothing else is
removed or modified — and the surviving conversations of `userId` are the
first 50 of the inserted sequence in document order (most-recent-first),
so only that user's oldest excess conversations are removed. -/
theorem createConversation_user_cap (now nr : Int) (newId userId : String)
    (im : Option LocalMessage) (store : ConvStore)
    (hnodup : ((ConversationStorageManager.getData now store).conversations.map
      (fun c => c.id)).Nodup)
    (hfresh : newId ∉ (ConversationStorageManager.getData now
      store).conversations.map (fun c => c.id))
    (hq : store.quotaFull = false) :
    ((ConversationStorageManager.getData nr
        (ConversationStorageManager.createConversation now newId userId im
          store).2).conversations.filter
      (fun c => c.userId == userId)).length ≤ 50 ∧
    (ConversationStorageManager.getData nr
        (ConversationStorageManager.createConversation now newId userId im
          store).2).conversations.filter (fun c => !(c.userId == userId)) =
      (ConversationStorageManager.getData now store).conversations.filter
        (fun c => !(c.userId == userId)) ∧
    (ConversationStorageManager.getData nr
        (ConversationStorageManager.createConversation now newId userId im
          store).2).conversations.filter (fun c => c.userId == userId) =
      ((ConversationStorageManager.newConversationRecord now newId userId im ::
        (ConversationStorageManager.getData now store).conversations).filter
        (fun c => c.userId == userId)).take 50 := by
  simp only [ConversationStorageManager.createConversation,
    ConversationStorageManager.MAX_CONVERSATIONS]
  rw [conv_getData_saveData now nr _ store hq]
  refine conv_cap_insert userId _ _ ?_ ?_
  · simp [ConversationStorageManager.newConversationRecord]
  · rw [List.map_cons]
    refine List.nodup_cons.mpr ⟨?_, hnodup⟩
    simpa [ConversationStorageManager.newConversationRecord] using hfresh

/-- Closed instance of `createConversation_user_cap` on the empty
store. -/
theorem createConversation_user_cap_witness :
    ((ConversationStorageManager.getData 8
        (ConversationStorageManager.createConversation 2 "c1" "u1" none
          ⟨none, false⟩).2).conversations.filter
      (fun c => c.userId == "u1")).length ≤ 50 ∧
    (ConversationStorageManager.getData 8
        (ConversationStorageManager.createConversation 2 "c1" "u1" none
          ⟨none, false⟩).2).conversations.filter
      (fun c => !(c.userId == "u1")) =
      (ConversationStorageManager.getData 2
        ⟨none, false⟩).conversations.filter (fun c => !(c.userId == "u1")) :=
  ⟨(createConversation_user_cap 2 8 "c1" "u1" none ⟨none, false⟩
      (by decide) (by decide) rfl).1,
   (createConversation_user_cap 2 8 "c1" "u1" none ⟨none, false⟩
      (by decide) (by decide) rfl).2.1⟩

end Sarha
